import Mathlib

/-!
Verification of the recommendation/filtering core of a movie-recommender app
(`src/app.py`).  The catalog is a pandas dataframe with columns
`title`, `movie_id`, a genre column and a release year; the similarity
matrix is a square numpy array positionally aligned with the catalog.
Similarity scores are modelled as rationals: the code only ever compares
scores, so any linearly ordered field models the float comparisons on the
(finitely many, exactly representable) values involved.
-/

/-- One catalog row (`movie_data`): `title`, `movie_id`, the raw delimited
genre cell (pandas `fillna("")` makes a missing cell the empty string), and
the release year (`None` when the date is missing or unparseable,
mirroring `pd.to_datetime(..., errors="coerce").dt.year` producing NaN). -/
structure Movie where
  title : String
  movie_id : Int
  genres : String
  year : Option Int
deriving DecidableEq, Inhabited

/-- Python's `similarity_scores.sort(key=lambda x: x[1], reverse=True)` is a
stable sort by descending score.  On `list(enumerate(row))` — whose first
components are strictly increasing — the stable descending sort is the unique
permutation sorted by the lexicographic key (score descending, then original
index ascending), which is what `simLe` orders. -/
def simLe (a b : Nat × ℚ) : Prop :=
  b.2 < a.2 ∨ (a.2 = b.2 ∧ a.1 ≤ b.1)

instance : DecidableRel simLe := fun a b =>
  inferInstanceAs (Decidable (b.2 < a.2 ∨ (a.2 = b.2 ∧ a.1 ≤ b.1)))

instance : IsTotal (Nat × ℚ) simLe :=
  ⟨by
    intro a b
    rcases lt_trichotomy a.2 b.2 with h | h | h
    · exact Or.inr (Or.inl h)
    · rcases Nat.le_total a.1 b.1 with h1 | h1
      · exact Or.inl (Or.inr ⟨h, h1⟩)
      · exact Or.inr (Or.inr ⟨h.symm, h1⟩)
    · exact Or.inl (Or.inl h)⟩

instance : IsTrans (Nat × ℚ) simLe :=
  ⟨by
    intro a b c hab hbc
    rcases hab with h1 | ⟨h1, h2⟩ <;> rcases hbc with h3 | ⟨h3, h4⟩
    · exact Or.inl (h3.trans h1)
    · exact Or.inl (h3 ▸ h1)
    · exact Or.inl (h1 ▸ h3)
    · exact Or.inr ⟨h1.trans h3, h2.trans h4⟩⟩

/-- `list(enumerate(row))`. -/
def pyEnumerate (row : List ℚ) : List (Nat × ℚ) := row.enum

/-- `similarity_scores.sort(key=lambda x: x[1], reverse=True)` (see `simLe`). -/
def simSort (l : List (Nat × ℚ)) : List (Nat × ℚ) :=
  List.insertionSort simLe l

/-- `movie_data[movie_data['title'] == selected_movie].index[0]`: the index of
the first row whose title equals the query (pandas `==` is case-sensitive
string equality; after `reset_index(drop=True)` the dataframe index is
positional), or `none` when the boolean mask selects no row (in which case
`.index[0]` raises, surfaced as `TitleNotFound`). -/
def pyFindIdx : List Movie → String → Option Nat
  | [], _ => none
  | m :: ms, t => if m.title = t then some 0 else (pyFindIdx ms t).map (· + 1)

/-- The `(index, score)` pairs the loop `for i in similarity_scores[1:6]`
iterates over: the sorted row with the top-ranked position dropped and the
next five taken.  Row access `similarity_matrix[idx]` is modelled with a
default for out-of-range indices; all claims operate under the alignment
invariant that makes every access in range. -/
def recPairs (selected : String) (movie_data : List Movie)
    (similarity : List (List ℚ)) : Option (List (Nat × ℚ)) :=
  (pyFindIdx movie_data selected).map fun idx =>
    ((simSort (pyEnumerate (similarity.getD idx []))).drop 1).take 5

/-- `generate_recommendations` (src/app.py:151-170), restricted to the pure
fields of each output dict: `(title, movie_id)` read back from the catalog by
`movie_data.iloc[i[0]]`.  The metadata enrichment `fetch_movie_details` is an
external call modelled separately below; it does not affect which movies are
returned or their order.  `none` models the `TitleNotFound` failure. -/
def generate_recommendations (selected : String) (movie_data : List Movie)
    (similarity : List (List ℚ)) : Option (List (String × Int)) :=
  (recPairs selected movie_data similarity).map
    (List.map fun p =>
      ((movie_data.getD p.1 default).title, (movie_data.getD p.1 default).movie_id))

/-- Two-movie catalog whose similarity rows are identical (duplicate movies):
self-similarity ties with the other row. -/
def cat2 : List Movie := [⟨"A", 0, "", none⟩, ⟨"B", 1, "", none⟩]

/-- Similarity matrix for `cat2`: all scores equal, so the query's
self-similarity is not the unique maximum of its row. -/
def mat2 : List (List ℚ) := [[1, 1], [1, 1]]

/-- Catalog of the spec's worked example. -/
def cat8 : List Movie :=
  [⟨"A", 0, "", none⟩, ⟨"B", 1, "", none⟩, ⟨"C", 2, "", none⟩,
   ⟨"D", 3, "", none⟩, ⟨"E", 4, "", none⟩, ⟨"F", 5, "", none⟩]

/-- Symmetric similarity matrix whose row for "A" is
`[1.0, 0.9, 0.9, 0.1, 0.5, 0.05]`, as in the spec's worked example
(`mkRat 9 10 = 0.9`, `mkRat 1 10 = 0.1`, `mkRat 1 2 = 0.5`,
`mkRat 1 20 = 0.05`). -/
def mat8 : List (List ℚ) :=
  [[1, mkRat 9 10, mkRat 9 10, mkRat 1 10, mkRat 1 2, mkRat 1 20],
   [mkRat 9 10, 1, 0, 0, 0, 0],
   [mkRat 9 10, 0, 1, 0, 0, 0],
   [mkRat 1 10, 0, 0, 1, 0, 0],
   [mkRat 1 2, 0, 0, 0, 1, 0],
   [mkRat 1 20, 0, 0, 0, 0, 1]]

/-- C1: the claim says the query movie's own index is never in the output even
when its self-similarity is not the unique row maximum.  The code violates
this: it drops rank position 0 (`similarity_scores[1:6]`) instead of excluding
by index equality.  On `cat2`/`mat2`, querying "B" (index 1, row `[1, 1]`)
returns "B" itself — the stable sort puts index 0 first, so slicing off the
top-ranked position removes the other movie and keeps the query. -/
theorem C1_self_recommended :
    generate_recommendations "B" cat2 mat2 = some [("B", 1)] ∧
      pyFindIdx cat2 "B" = some 1 := by
  constructor <;> decide

/-- C8: on the spec's worked example — catalog A..F with ids 0..5 and row for
"A" equal to `[1.0, 0.9, 0.9, 0.1, 0.5, 0.05]` — recommending for "A" with
k = 5 yields the titles B, C, E, D, F in that order (the B/C tie broken by
original catalog order). -/
theorem C8_worked_example :
    generate_recommendations "A" cat8 mat8 =
      some [("B", 1), ("C", 2), ("E", 4), ("D", 3), ("F", 5)] := by
  decide

/-- The sorted pair list is pairwise ordered: strictly descending score, and
ties strictly ascending in original index.  Shared engine for C2. -/
theorem simSort_enum_pairwise (row : List ℚ) :
    (simSort (pyEnumerate row)).Pairwise
      (fun a b => b.2 < a.2 ∨ (a.2 = b.2 ∧ a.1 < b.1)) := by
  have h1 : (simSort (pyEnumerate row)).Pairwise simLe :=
    List.sorted_insertionSort simLe (pyEnumerate row)
  have hn : (pyEnumerate row).Pairwise (fun a b => a.1 ≠ b.1) := by
    have := List.nodup_enum_map_fst row
    rw [List.Nodup, List.pairwise_map] at this
    exact this
  have h2 : (simSort (pyEnumerate row)).Pairwise (fun a b => a.1 ≠ b.1) :=
    ((List.perm_insertionSort simLe (pyEnumerate row)).pairwise_iff
      (fun h => Ne.symm h)).mpr hn
  rw [List.pairwise_iff_forall_sublist] at h1 h2 ⊢
  intro a b hab
  rcases h1 hab with hlt | ⟨heq, hle⟩
  · exact Or.inl hlt
  · exact Or.inr ⟨heq, lt_of_le_of_ne hle (h2 hab)⟩

/-- C2: whenever the recommendation operation succeeds, its output pairs are
sorted by strictly descending similarity score, and entries with equal scores
appear in ascending original catalog index (the stable-sort tie order), so the
output is deterministic under ties. -/
theorem C2_sorted_stable (t : String) (movies : List Movie) (sim : List (List ℚ))
    (l : List (Nat × ℚ)) (h : recPairs t movies sim = some l) :
    l.Pairwise (fun a b => b.2 < a.2 ∨ (a.2 = b.2 ∧ a.1 < b.1)) := by
  rw [recPairs] at h
  rcases Option.map_eq_some'.mp h with ⟨idx, _, rfl⟩
  exact List.Pairwise.sublist
    ((List.take_sublist _ _).trans (List.drop_sublist _ _))
    (simSort_enum_pairwise (sim.getD idx []))

/-- Witness for C2 at the worked example: querying "A" on `cat8`/`mat8`. -/
theorem C2_witness :
    List.Pairwise (fun a b : Nat × ℚ => b.2 < a.2 ∨ (a.2 = b.2 ∧ a.1 < b.1))
      [(1, mkRat 9 10), (2, mkRat 9 10), (4, mkRat 1 2), (3, mkRat 1 10),
        (5, mkRat 1 20)] :=
  C2_sorted_stable "A" cat8 mat8 _ (by decide)

/-- C3: when the title is found and the query row has one score per catalog
entry (alignment invariant), the recommendation output has length
`min 5 (catalog_size - 1)`: never more than k = 5, and all remaining movies
(possibly zero) when fewer than 5 others exist. -/
theorem C3_output_length (t : String) (movies : List Movie) (sim : List (List ℚ))
    (idx : Nat) (hfind : pyFindIdx movies t = some idx)
    (hrow : (sim.getD idx []).length = movies.length) :
    ∃ l, generate_recommendations t movies sim = some l ∧
      l.length = min 5 (movies.length - 1) := by
  have hrec : recPairs t movies sim
      = some (((simSort (pyEnumerate (sim.getD idx []))).drop 1).take 5) := by
    rw [recPairs, hfind, Option.map_some']
  refine ⟨_, by rw [generate_recommendations, hrec, Option.map_some'], ?_⟩
  rw [List.length_map, List.length_take, List.length_drop]
  congr 1
  rw [simSort, List.length_insertionSort, pyEnumerate, List.enum_length, hrow]

/-- Witness for C3 at the worked example: catalog of 6, output length 5. -/
theorem C3_witness :
    pyFindIdx cat8 "A" = some 0 ∧ (mat8.getD 0 []).length = cat8.length ∧
      ∃ l, generate_recommendations "A" cat8 mat8 = some l ∧
        l.length = min 5 (cat8.length - 1) :=
  ⟨by decide, by decide, C3_output_length "A" cat8 mat8 0 (by decide) (by decide)⟩

/-- Python's substring test `needle in hay` for strings, on character lists:
some split position makes `needle` a prefix of the remainder. -/
def listContains (hay needle : List Char) : Bool :=
  (List.range (hay.length + 1)).any fun i =>
    decide ((hay.drop i).take needle.length = needle)

/-- `g in x` for Python strings: case-sensitive contiguous substring
containment (this is what line 251 of src/app.py evaluates per genre). -/
def pyStrIn (needle hay : String) : Bool := listContains hay.data needle.data

/-- The years of `year_series` that parsed (`NaN` entries dropped). -/
def yearsKnown (movies : List Movie) : List Int := movies.filterMap Movie.year

/-- `int(year_series.min())` with NaNs skipped; `0` when no year is known. -/
def year_min (movies : List Movie) : Int :=
  match yearsKnown movies with
  | [] => 0
  | y :: ys => ys.foldl min y

/-- `int(year_series.max())` with NaNs skipped; `0` when no year is known. -/
def year_max (movies : List Movie) : Int :=
  match yearsKnown movies with
  | [] => 0
  | y :: ys => ys.foldl max y

/-- The per-row boolean `mask` (src/app.py:248-253): it starts all-`True`;
when genres are selected and the genre series is nonempty it conjoins
`any(g in x for g in selected_genres)` — substring containment of a selected
genre in the raw genre cell; when the observed year bounds differ it conjoins
`year_series.between(lo, hi)` (inclusive on both ends, `False` on NaN). -/
def movieMask (movies : List Movie) (selected_genres : List String)
    (lo hi : Int) (m : Movie) : Bool :=
  (if selected_genres = [] ∨ movies = [] then true
   else selected_genres.any fun g => pyStrIn g m.genres) &&
  (if year_min movies = year_max movies then true
   else match m.year with
     | some y => decide (lo ≤ y) && decide (y ≤ hi)
     | none => false)

/-- `np.flatnonzero(mask.to_numpy())` (src/app.py:255): the positions of the
`True` entries of the mask, in increasing order. -/
def filtered_idx (movies : List Movie) (sel : List String) (lo hi : Int) :
    List Nat :=
  ((movies.map (movieMask movies sel lo hi)).enum.filter fun p => p.2).map
    fun p => p.1

/-- `movie_data.iloc[filtered_idx].reset_index(drop=True)` (src/app.py:256). -/
def filtered_movies (movies : List Movie) (sel : List String) (lo hi : Int) :
    List Movie :=
  (filtered_idx movies sel lo hi).map fun i => movies.getD i default

/-- `similarity_matrix[np.ix_(filtered_idx, filtered_idx)]` (src/app.py:258):
the principal submatrix on `filtered_idx` along both dimensions. -/
def filtered_similarity (sim : List (List ℚ)) (movies : List Movie)
    (sel : List String) (lo hi : Int) : List (List ℚ) :=
  (filtered_idx movies sel lo hi).map fun i =>
    (filtered_idx movies sel lo hi).map fun j => (sim.getD i []).getD j 0

/-- The genre-label extraction the app itself uses to build the multiselect
options (src/app.py:218-225): split the raw cell on `,` and `|`. -/
def splitCells : List Char → List (List Char)
  | [] => [[]]
  | c :: cs =>
    if c = ',' ∨ c = '|' then [] :: splitCells cs
    else
      match splitCells cs with
      | [] => [[c]]
      | g :: gs => (c :: g) :: gs

/-- `str.strip()` restricted to spaces (the only whitespace appearing in
genre cells): drop leading and trailing blanks. -/
def trimChars (cs : List Char) : List Char :=
  ((cs.dropWhile fun c => c = ' ').reverse.dropWhile fun c => c = ' ').reverse

/-- The movie's genre labels: the stripped, nonempty components of the raw
delimited genre cell, exactly as the app extracts them for `all_genres`. -/
def genreLabels (cell : String) : List String :=
  ((splitCells cell.data).map fun g => String.mk (trimChars g)).filter
    fun s => decide (s ≠ "")

/-- The selection predicate exactly as claim C5 states it: the genre clause
uses exact-label set membership (a genre label of the movie is a member of
the selected set), not substring containment. -/
def specIncludedC5 (movies : List Movie) (sel : List String) (lo hi : Int)
    (m : Movie) : Prop :=
  (sel = [] ∨ ∃ lab ∈ genreLabels m.genres, lab ∈ sel) ∧
  ((∃ y, m.year = some y ∧ lo ≤ y ∧ y ≤ hi) ∨ year_min movies = year_max movies)

/-- A one-movie catalog whose genre cell is "Comedy". -/
def mC5 : Movie := ⟨"M", 0, "Comedy", some 2000⟩

/-- C5 as stated is false: with the selected genre set `{"Com"}` the mask
includes `mC5` ("Com" is a substring of "Comedy") although "Com" is not one
of the movie's genre labels, so the claimed exact-label predicate excludes
it.  Genre matching in the code is substring containment, not label
membership. -/
theorem C5_counterexample :
    movieMask [mC5] ["Com"] 2000 2000 mC5 = true ∧
      ¬ specIncludedC5 [mC5] ["Com"] 2000 2000 mC5 := by
  refine ⟨by decide, fun h => ?_⟩
  rcases h.1 with h0 | ⟨lab, hlab, hmem⟩
  · exact absurd h0 (by decide)
  · have he : genreLabels mC5.genres = ["Comedy"] := by decide
    rw [he] at hlab
    rcases List.mem_singleton.mp hlab with rfl
    exact absurd hmem (by decide)

/-- C5 (amended): the mask includes a movie iff (no genre is selected, or the
catalog is empty, or some selected genre occurs as a contiguous substring of
the movie's raw genre cell) and (year filtering is disabled because the
observed year bounds coincide, or the movie's year is present and lies within
the inclusive range). -/
theorem C5_mask_characterization (movies : List Movie) (sel : List String)
    (lo hi : Int) (m : Movie) :
    movieMask movies sel lo hi m = true ↔
      ((sel = [] ∨ movies = [] ∨ ∃ g ∈ sel, pyStrIn g m.genres = true) ∧
        (year_min movies = year_max movies ∨
          ∃ y, m.year = some y ∧ lo ≤ y ∧ y ≤ hi)) := by
  rw [movieMask, Bool.and_eq_true]
  have hgenre : ((if sel = [] ∨ movies = [] then true
      else sel.any fun g => pyStrIn g m.genres) = true) ↔
      (sel = [] ∨ movies = [] ∨ ∃ g ∈ sel, pyStrIn g m.genres = true) := by
    split_ifs with h1
    · constructor
      · intro _
        rcases h1 with h | h
        · exact Or.inl h
        · exact Or.inr (Or.inl h)
      · intro _
        rfl
    · rw [List.any_eq_true]
      constructor
      · rintro ⟨g, hg, hp⟩
        exact Or.inr (Or.inr ⟨g, hg, hp⟩)
      · rintro (h | h | ⟨g, hg, hp⟩)
        · exact absurd (Or.inl h) h1
        · exact absurd (Or.inr h) h1
        · exact ⟨g, hg, hp⟩
  have hyear : ((if year_min movies = year_max movies then true
      else match m.year with
        | some y => decide (lo ≤ y) && decide (y ≤ hi)
        | none => false) = true) ↔
      (year_min movies = year_max movies ∨
        ∃ y, m.year = some y ∧ lo ≤ y ∧ y ≤ hi) := by
    split_ifs with h2
    · simp [h2]
    · cases hy : m.year with
      | none => simp [h2]
      | some y => simp [h2, Bool.and_eq_true, decide_eq_true_iff]
  rw [hgenre, hyear]

/-- Indexing a mapped list below its length applies the function to the
underlying entry, for any defaults on either side. -/
theorem getD_map_of_lt {α β : Type} (f : α → β) (l : List α) (i : Nat)
    (h : i < l.length) (d : β) (d' : α) :
    (l.map f).getD i d = f (l.getD i d') := by
  rw [List.getD_eq_getElem?_getD, List.getElem?_map, List.getD_eq_getElem?_getD,
    List.getElem?_eq_getElem h]
  simp

/-- `filtered_idx` holds exactly the in-range original indices whose catalog
entry passes the mask. -/
theorem mem_filtered_idx (movies : List Movie) (sel : List String)
    (lo hi : Int) (k : Nat) :
    k ∈ filtered_idx movies sel lo hi ↔
      k < movies.length ∧
        movieMask movies sel lo hi (movies.getD k default) = true := by
  unfold filtered_idx
  rw [List.mem_map]
  constructor
  · rintro ⟨p, hp, rfl⟩
    rw [List.mem_filter] at hp
    obtain ⟨henum, hb⟩ := hp
    rw [List.mem_enum_iff_getElem?, List.getElem?_map] at henum
    rcases Option.map_eq_some'.mp henum with ⟨mv, hmv, hmask⟩
    rcases List.getElem?_eq_some.mp hmv with ⟨hlt, _⟩
    refine ⟨hlt, ?_⟩
    rw [List.getD_eq_getElem?_getD, hmv, Option.getD_some, hmask]
    exact hb
  · rintro ⟨hlt, hmask⟩
    refine ⟨(k, true), ?_, rfl⟩
    rw [List.mem_filter]
    refine ⟨?_, rfl⟩
    rw [List.mem_enum_iff_getElem?, List.getElem?_map,
      List.getElem?_eq_getElem hlt, Option.map_some']
    have hg : movies[k] = movies.getD k default := by
      rw [List.getD_eq_getElem?_getD, List.getElem?_eq_getElem hlt,
        Option.getD_some]
    rw [hg, hmask]

/-- The selected index list is strictly increasing: original relative order
is preserved by filtering. -/
theorem filtered_idx_sorted (movies : List Movie) (sel : List String)
    (lo hi : Int) : (filtered_idx movies sel lo hi).Pairwise (· < ·) := by
  unfold filtered_idx
  refine List.pairwise_map.mpr ?_
  refine List.Pairwise.sublist (List.filter_sublist _) ?_
  rw [List.pairwise_iff_getElem]
  intro i j hi2 hj2 hij
  rw [List.getElem_enum, List.getElem_enum]
  exact hij

/-- C4: filtering subsets catalog and matrix with the same strictly
increasing index list `filtered_idx`: position `i` of the filtered catalog is
the original catalog entry at `filtered_idx[i]`; entry `(i, j)` of the
filtered matrix is the original matrix entry at
`(filtered_idx[i], filtered_idx[j])` (a principal submatrix); and
`filtered_idx` holds exactly the mask-selected original indices — so the
positional row/column-to-catalog alignment invariant is preserved. -/
theorem C4_filter_alignment (movies : List Movie) (sim : List (List ℚ))
    (sel : List String) (lo hi : Int) (i j : Nat)
    (h1 : i < (filtered_idx movies sel lo hi).length)
    (h2 : j < (filtered_idx movies sel lo hi).length) :
    (filtered_movies movies sel lo hi).getD i default
        = movies.getD ((filtered_idx movies sel lo hi).getD i 0) default
    ∧ ((filtered_similarity sim movies sel lo hi).getD i []).getD j 0
        = (sim.getD ((filtered_idx movies sel lo hi).getD i 0) []).getD
            ((filtered_idx movies sel lo hi).getD j 0) 0
    ∧ (filtered_idx movies sel lo hi).Pairwise (· < ·)
    ∧ (∀ k, k ∈ filtered_idx movies sel lo hi ↔
        k < movies.length ∧
          movieMask movies sel lo hi (movies.getD k default) = true) := by
  refine ⟨?_, ?_, filtered_idx_sorted movies sel lo hi,
    fun k => mem_filtered_idx movies sel lo hi k⟩
  · rw [filtered_movies]
    exact getD_map_of_lt _ _ _ h1 _ 0
  · have e1 : (filtered_similarity sim movies sel lo hi).getD i []
        = (filtered_idx movies sel lo hi).map
            fun j2 => (sim.getD ((filtered_idx movies sel lo hi).getD i 0) []).getD j2 0 := by
      rw [filtered_similarity]
      exact getD_map_of_lt _ _ _ h1 _ 0
    rw [e1]
    exact getD_map_of_lt _ _ _ h2 _ 0

/-- Witness for C4 on `cat2`/`mat2` with no filters: positions 0 and 1. -/
theorem C4_witness :
    0 < (filtered_idx cat2 [] 0 0).length ∧
      1 < (filtered_idx cat2 [] 0 0).length ∧
      ((filtered_movies cat2 [] 0 0).getD 0 default
          = cat2.getD ((filtered_idx cat2 [] 0 0).getD 0 0) default
        ∧ ((filtered_similarity mat2 cat2 [] 0 0).getD 0 []).getD 1 0
            = (mat2.getD ((filtered_idx cat2 [] 0 0).getD 0 0) []).getD
                ((filtered_idx cat2 [] 0 0).getD 1 0) 0
        ∧ (filtered_idx cat2 [] 0 0).Pairwise (· < ·)
        ∧ (∀ k, k ∈ filtered_idx cat2 [] 0 0 ↔
            k < cat2.length ∧
              movieMask cat2 [] 0 0 (cat2.getD k default) = true)) :=
  ⟨by decide, by decide,
    C4_filter_alignment cat2 mat2 [] 0 0 0 1 (by decide) (by decide)⟩

/-- Left fold of `min` never exceeds its initial accumulator. -/
theorem foldl_min_le_init (xs : List Int) (a : Int) : xs.foldl min a ≤ a := by
  induction xs generalizing a with
  | nil => exact le_refl a
  | cons x xs ih => exact le_trans (ih (min a x)) (min_le_left a x)

/-- Left fold of `min` is at most every list element. -/
theorem foldl_min_le_mem (xs : List Int) (y : Int) (hy : y ∈ xs) :
    ∀ a, xs.foldl min a ≤ y := by
  induction xs with
  | nil => cases hy
  | cons x xs ih =>
    intro a
    rcases List.mem_cons.mp hy with rfl | hy2
    · exact le_trans (foldl_min_le_init xs (min a y)) (min_le_right a y)
    · exact ih hy2 (min a x)

/-- Left fold of `max` is at least its initial accumulator. -/
theorem le_foldl_max_init (xs : List Int) (a : Int) : a ≤ xs.foldl max a := by
  induction xs generalizing a with
  | nil => exact le_refl a
  | cons x xs ih => exact le_trans (le_max_left a x) (ih (max a x))

/-- Left fold of `max` is at least every list element. -/
theorem le_foldl_max_mem (xs : List Int) (y : Int) (hy : y ∈ xs) :
    ∀ a, y ≤ xs.foldl max a := by
  induction xs with
  | nil => cases hy
  | cons x xs ih =>
    intro a
    rcases List.mem_cons.mp hy with rfl | hy2
    · exact le_trans (le_max_right a y) (le_foldl_max_init xs (max a y))
    · exact ih hy2 (max a x)

/-- The observed minimum year bounds every known year from below. -/
theorem year_min_le_of_mem (movies : List Movie) (y : Int)
    (hy : y ∈ yearsKnown movies) : year_min movies ≤ y := by
  cases h : yearsKnown movies with
  | nil => rw [h] at hy; cases hy
  | cons z zs =>
    rw [h] at hy
    have he : year_min movies = zs.foldl min z := by rw [year_min, h]
    rw [he]
    rcases List.mem_cons.mp hy with rfl | hy2
    · exact foldl_min_le_init zs y
    · exact foldl_min_le_mem zs y hy2 z

/-- The observed maximum year bounds every known year from above. -/
theorem le_year_max_of_mem (movies : List Movie) (y : Int)
    (hy : y ∈ yearsKnown movies) : y ≤ year_max movies := by
  cases h : yearsKnown movies with
  | nil => rw [h] at hy; cases hy
  | cons z zs =>
    rw [h] at hy
    have he : year_max movies = zs.foldl max z := by rw [year_max, h]
    rw [he]
    rcases List.mem_cons.mp hy with rfl | hy2
    · exact le_foldl_max_init zs y
    · exact le_foldl_max_mem zs y hy2 z

/-- Reading every position of a list back by index rebuilds the list. -/
theorem map_getD_range {α : Type} (l : List α) (d : α) :
    (List.range l.length).map (fun i => l.getD i d) = l := by
  apply List.ext_getElem
  · rw [List.length_map, List.length_range]
  · intro i h1 h2
    simp only [List.getElem_map, List.getElem_range]
    rw [List.getD_eq_getElem?_getD, List.getElem?_eq_getElem h2,
      Option.getD_some]

/-- When every row passes the mask, the selected index list is all of
`0, ..., n-1`. -/
theorem filtered_idx_all_true (movies : List Movie) (sel : List String)
    (lo hi : Int)
    (h : ∀ m ∈ movies, movieMask movies sel lo hi m = true) :
    filtered_idx movies sel lo hi = List.range movies.length := by
  unfold filtered_idx
  have hf : (movies.map (movieMask movies sel lo hi)).enum.filter
      (fun p => p.2) = (movies.map (movieMask movies sel lo hi)).enum := by
    rw [List.filter_eq_self]
    intro p hp
    rw [List.mem_enum_iff_getElem?, List.getElem?_map] at hp
    rcases Option.map_eq_some'.mp hp with ⟨mv, hmv, hmask⟩
    have hmem : mv ∈ movies := List.getElem?_mem hmv
    show p.2 = true
    rw [← hmask]
    exact h mv hmem
  rw [hf]
  apply List.ext_getElem
  · rw [List.length_map, List.enum_length, List.length_map, List.length_range]
  · intro i h1 h2
    simp only [List.getElem_map, List.getElem_enum, List.getElem_range]

/-- Catalog with a movie whose release year is missing, between two movies
with distinct known years. -/
def cat7 : List Movie :=
  [⟨"X", 0, "", some 2000⟩, ⟨"Y", 1, "", none⟩, ⟨"Z", 2, "", some 2010⟩]

/-- C7 as stated is false: with no genre selected and the year range equal to
the observed global bounds (2000, 2010), filtering `cat7` is not the
identity — the movie with a missing year is dropped, because the year bounds
differ and `between` is `False` on NaN. -/
theorem C7_counterexample :
    filtered_movies cat7 [] (year_min cat7) (year_max cat7) ≠ cat7 := by
  decide

/-- C7 (amended): filtering with an empty genre set and the full observed
year range is the identity on catalog and (aligned, square) matrix, provided
every movie's year is present or year filtering is disabled because the
observed bounds coincide. -/
theorem C7_full_range_identity (movies : List Movie) (sim : List (List ℚ))
    (hy : (∀ m ∈ movies, m.year ≠ none) ∨ year_min movies = year_max movies)
    (hdim : sim.length = movies.length)
    (hrow : ∀ row ∈ sim, row.length = movies.length) :
    filtered_movies movies [] (year_min movies) (year_max movies) = movies
    ∧ filtered_similarity sim movies [] (year_min movies) (year_max movies)
        = sim := by
  have hmask : ∀ m ∈ movies,
      movieMask movies [] (year_min movies) (year_max movies) m = true := by
    intro m hm
    rw [movieMask, if_pos (Or.inl rfl), Bool.true_and]
    split_ifs with h2
    · rfl
    · rcases hy with hy2 | hy2
      · cases hmy : m.year with
        | none => exact absurd hmy (hy2 m hm)
        | some y =>
          simp only [hmy]
          rw [Bool.and_eq_true, decide_eq_true_iff, decide_eq_true_iff]
          have hk : y ∈ yearsKnown movies :=
            List.mem_filterMap.mpr ⟨m, hm, hmy⟩
          exact ⟨year_min_le_of_mem movies y hk, le_year_max_of_mem movies y hk⟩
      · exact absurd hy2 h2
  have hidx : filtered_idx movies [] (year_min movies) (year_max movies)
      = List.range movies.length :=
    filtered_idx_all_true movies [] (year_min movies) (year_max movies) hmask
  constructor
  · rw [filtered_movies, hidx, map_getD_range]
  · rw [filtered_similarity, hidx]
    apply List.ext_getElem
    · rw [List.length_map, List.length_range, hdim]
    · intro i h1 h2
      simp only [List.getElem_map, List.getElem_range]
      have hr : sim.getD i [] = sim[i] := by
        rw [List.getD_eq_getElem?_getD, List.getElem?_eq_getElem h2,
          Option.getD_some]
      rw [hr]
      have hlen : movies.length = (sim[i] : List ℚ).length :=
        (hrow sim[i] (List.getElem_mem h2)).symm
      rw [hlen, map_getD_range]

/-- Two-movie catalog with all years present, for the C7 witness. -/
def cat7w : List Movie := [⟨"X", 0, "", some 2000⟩, ⟨"Z", 2, "", some 2010⟩]

/-- Aligned 2x2 similarity matrix for `cat7w`. -/
def mat7w : List (List ℚ) := [[1, mkRat 1 2], [mkRat 1 2, 1]]

/-- Witness for C7 (amended) on `cat7w`/`mat7w`. -/
theorem C7_witness :
    ((∀ m ∈ cat7w, m.year ≠ none) ∨ year_min cat7w = year_max cat7w) ∧
      mat7w.length = cat7w.length ∧
      (∀ row ∈ mat7w, row.length = cat7w.length) ∧
      (filtered_movies cat7w [] (year_min cat7w) (year_max cat7w) = cat7w
        ∧ filtered_similarity mat7w cat7w [] (year_min cat7w) (year_max cat7w)
            = mat7w) :=
  ⟨Or.inl (by decide), by decide, by decide,
    C7_full_range_identity cat7w mat7w (Or.inl (by decide)) (by decide)
      (by decide)⟩

/-- The title lookup fails exactly when no catalog entry's title equals the
query string. -/
theorem pyFindIdx_eq_none_iff (movies : List Movie) (t : String) :
    pyFindIdx movies t = none ↔ ∀ m ∈ movies, m.title ≠ t := by
  induction movies with
  | nil => simp [pyFindIdx]
  | cons m ms ih =>
    rw [pyFindIdx]
    split_ifs with h
    · simp [h]
    · rw [Option.map_eq_none', ih]
      constructor
      · intro hall x hx
        rcases List.mem_cons.mp hx with rfl | hx2
        · exact h
        · exact hall x hx2
      · intro hall x hx
        exact hall x (List.mem_cons_of_mem m hx)

/-- A successful title lookup returns an in-range index whose entry's title
matches, and no earlier entry matches: the first occurrence wins. -/
theorem pyFindIdx_spec (movies : List Movie) (t : String) (idx : Nat)
    (h : pyFindIdx movies t = some idx) :
    idx < movies.length ∧ (movies.getD idx default).title = t ∧
      ∀ j < idx, (movies.getD j default).title ≠ t := by
  induction movies generalizing idx with
  | nil => cases h
  | cons m ms ih =>
    rw [pyFindIdx] at h
    split_ifs at h with hm
    · obtain rfl := Option.some.inj h
      refine ⟨Nat.succ_pos _, hm, ?_⟩
      intro j hj
      exact absurd hj (Nat.not_lt_zero j)
    · rcases Option.map_eq_some'.mp h with ⟨idx2, hidx2, rfl⟩
      obtain ⟨h1, h2, h3⟩ := ih idx2 hidx2
      refine ⟨Nat.succ_lt_succ h1, ?_, ?_⟩
      · rw [List.getD_cons_succ]
        exact h2
      · intro j hj
        cases j with
        | zero =>
          rw [List.getD_cons_zero]
          exact hm
        | succ j2 =>
          rw [List.getD_cons_succ]
          exact h3 j2 (Nat.lt_of_succ_lt_succ hj)

/-- C6: the recommendation operation fails (TitleNotFound) iff no catalog
entry's title is exactly (case-sensitively) equal to the query; when a match
exists, it succeeds, and the query row is the first occurrence in catalog
order: its index is in range, its title matches, no earlier title matches,
and the output is computed from that row. -/
theorem C6_title_lookup (t : String) (movies : List Movie)
    (sim : List (List ℚ)) :
    (generate_recommendations t movies sim = none ↔ ∀ m ∈ movies, m.title ≠ t)
    ∧ ∀ idx, pyFindIdx movies t = some idx →
        idx < movies.length
        ∧ (movies.getD idx default).title = t
        ∧ (∀ j < idx, (movies.getD j default).title ≠ t)
        ∧ generate_recommendations t movies sim
            = some ((((simSort (pyEnumerate (sim.getD idx []))).drop 1).take 5).map
                fun p => ((movies.getD p.1 default).title,
                  (movies.getD p.1 default).movie_id)) := by
  constructor
  · rw [generate_recommendations, recPairs, Option.map_eq_none',
      Option.map_eq_none']
    exact pyFindIdx_eq_none_iff movies t
  · intro idx hidx
    obtain ⟨h1, h2, h3⟩ := pyFindIdx_spec movies t idx hidx
    refine ⟨h1, h2, h3, ?_⟩
    rw [generate_recommendations, recPairs, hidx, Option.map_some',
      Option.map_some']

/-- Witness for C6: on `cat2`, querying "B" resolves to index 1 and the
computed output. -/
theorem C6_witness :
    1 < cat2.length ∧ (cat2.getD 1 default).title = "B" ∧
      (∀ j < 1, (cat2.getD j default).title ≠ "B") ∧
      generate_recommendations "B" cat2 mat2
        = some ((((simSort (pyEnumerate (mat2.getD 1 []))).drop 1).take 5).map
            fun p => ((cat2.getD p.1 default).title,
              (cat2.getD p.1 default).movie_id)) :=
  (C6_title_lookup "B" cat2 mat2).2 1 (by decide)

/-- Parsed JSON body of `GET /movie/{movie_id}`: the fields
`fetch_movie_details` reads, each `none` when absent (`data.get`). -/
structure TmdbMovie where
  poster_path : Option String
  imdb_id : Option String
  vote_average : Option ℚ
  genres : List (Option String)
deriving DecidableEq

/-- One element of the `results` array of `GET /movie/{movie_id}/videos`;
the fields model `video.get("type")`, `video.get("site")` and
`video.get("key")` (`none` = field absent). -/
structure TmdbVideo where
  vtype : Option String
  site : Option String
  key : Option String
deriving DecidableEq

/-- `data.get("vote_average", "N/A")` is either the numeric rating or the
default string "N/A". -/
inductive TmdbRating where
  | val (q : ℚ)
  | na
deriving DecidableEq

/-- Outcome of one `requests.get` call: a parsed 2xx body; a non-2xx
response (`raise_for_status` raises for the main call, `vids.ok` is false
for the videos call); or a raised exception — timeout, connection failure,
or malformed payload (`.json()` raising). -/
inductive ReqOutcome (α : Type) where
  | success (body : α)
  | httpError
  | exn
deriving DecidableEq

/-- Python `x or ""`: `None` and `""` both give `""`. -/
def pyOr (o : Option String) : String := o.getD ""

/-- `poster_url` (src/app.py:131): prefixed path, or `""` without one. -/
def posterUrlOf (data : TmdbMovie) : String :=
  if pyOr data.poster_path ≠ "" then
    "https://image.tmdb.org/t/p/w500" ++ pyOr data.poster_path
  else ""

/-- `imdb_url` (src/app.py:132): title URL, or `"#"` without an imdb id. -/
def imdbUrlOf (data : TmdbMovie) : String :=
  if pyOr data.imdb_id ≠ "" then
    "https://www.imdb.com/title/" ++ pyOr data.imdb_id ++ "/"
  else "#"

/-- `data.get("vote_average", "N/A")` (src/app.py:128). -/
def ratingOf (data : TmdbMovie) : TmdbRating :=
  match data.vote_average with
  | some q => TmdbRating.val q
  | none => TmdbRating.na

/-- `", ".join([g.get("name", "") for g in data.get("genres", []) if
g.get("name")])` (src/app.py:129): the truthy genre names, comma-joined. -/
def genresStrOf (data : TmdbMovie) : String :=
  String.intercalate ", " (data.genres.filterMap fun o =>
    match o with
    | some s => if s = "" then none else some s
    | none => none)

/-- The trailer loop (src/app.py:140-143): the first video whose type is
"Trailer", site is "YouTube" and key is truthy determines the URL;
otherwise the initial `"#"` survives. -/
def trailerOf : List TmdbVideo → String
  | [] => "#"
  | v :: vs =>
    if v.vtype = some "Trailer" ∧ v.site = some "YouTube" ∧ v.key.getD "" ≠ ""
    then "https://www.youtube.com/watch?v=" ++ v.key.getD ""
    else trailerOf vs

/-- The 5-tuple `fetch_movie_details` returns:
`(poster_url, rating, imdb_url, genres, trailer_url)`. -/
abbrev FetchResult := String × TmdbRating × String × String × String

/-- The body of the `try` block of `fetch_movie_details`
(src/app.py:119-145) as a fallible computation over the two request
outcomes: a failing main request (non-2xx via `raise_for_status`, timeout,
or malformed payload) raises, as does an exception in the videos request;
a non-OK videos response merely leaves the trailer at `"#"`. -/
def fetchRaw (main : ReqOutcome TmdbMovie)
    (videos : ReqOutcome (List TmdbVideo)) : Except Unit FetchResult :=
  match main with
  | ReqOutcome.httpError => Except.error ()
  | ReqOutcome.exn => Except.error ()
  | ReqOutcome.success data =>
    match videos with
    | ReqOutcome.exn => Except.error ()
    | ReqOutcome.httpError =>
        Except.ok (posterUrlOf data, ratingOf data, imdbUrlOf data,
          genresStrOf data, "#")
    | ReqOutcome.success results =>
        Except.ok (posterUrlOf data, ratingOf data, imdbUrlOf data,
          genresStrOf data, trailerOf results)

/-- `fetch_movie_details` (src/app.py:117-149): the `except` handler turns
any raised exception into the documented safe defaults, so the function is
total over every service behavior. -/
def fetch_movie_details (main : ReqOutcome TmdbMovie)
    (videos : ReqOutcome (List TmdbVideo)) : FetchResult :=
  match fetchRaw main videos with
  | Except.ok r => r
  | Except.error _ => ("", TmdbRating.na, "#", "", "#")

/-- C9: the metadata fetch never propagates a failure to its caller: for
every behavior of the two requests it returns a 5-tuple; any raised
exception (main-request timeout, non-200 via `raise_for_status`, malformed
payload, or a videos-request exception) yields the full default tuple, and
on a successful main request each field that cannot be obtained gets its
documented default: empty poster URL, "N/A" rating, "#" IMDb URL, empty
genre string, "#" trailer URL. -/
theorem C9_graceful (main : ReqOutcome TmdbMovie)
    (videos : ReqOutcome (List TmdbVideo)) :
    (main = ReqOutcome.httpError ∨ main = ReqOutcome.exn ∨
        videos = ReqOutcome.exn →
      fetch_movie_details main videos = ("", TmdbRating.na, "#", "", "#"))
    ∧ (∀ data, main = ReqOutcome.success data → videos ≠ ReqOutcome.exn →
        ((data.poster_path.getD "" = "" →
            (fetch_movie_details main videos).1 = "")
          ∧ (data.vote_average = none →
              (fetch_movie_details main videos).2.1 = TmdbRating.na)
          ∧ (data.imdb_id.getD "" = "" →
              (fetch_movie_details main videos).2.2.1 = "#")
          ∧ (data.genres = [] →
              (fetch_movie_details main videos).2.2.2.1 = "")
          ∧ (videos = ReqOutcome.httpError →
              (fetch_movie_details main videos).2.2.2.2 = "#"))) := by
  constructor
  · rintro (rfl | rfl | rfl)
    · rfl
    · rfl
    · cases main <;> rfl
  · rintro data rfl hv
    cases videos with
    | exn => exact absurd rfl hv
    | httpError =>
      refine ⟨?_, ?_, ?_, ?_, fun _ => rfl⟩
      · intro h
        show posterUrlOf data = ""
        rw [posterUrlOf, if_neg fun hne => hne h]
      · intro h
        show ratingOf data = TmdbRating.na
        rw [ratingOf, h]
      · intro h
        show imdbUrlOf data = "#"
        rw [imdbUrlOf, if_neg fun hne => hne h]
      · intro h
        show genresStrOf data = ""
        rw [genresStrOf, h]
        rfl
    | success results =>
      refine ⟨?_, ?_, ?_, ?_, ?_⟩
      · intro h
        show posterUrlOf data = ""
        rw [posterUrlOf, if_neg fun hne => hne h]
      · intro h
        show ratingOf data = TmdbRating.na
        rw [ratingOf, h]
      · intro h
        show imdbUrlOf data = "#"
        rw [imdbUrlOf, if_neg fun hne => hne h]
      · intro h
        show genresStrOf data = ""
        rw [genresStrOf, h]
        rfl
      · intro h
        cases h

/-- Witness for C9: both requests raising yields the full default tuple. -/
theorem C9_witness :
    fetch_movie_details ReqOutcome.exn ReqOutcome.exn
      = ("", TmdbRating.na, "#", "", "#") :=
  (C9_graceful ReqOutcome.exn ReqOutcome.exn).1 (Or.inr (Or.inl rfl))

/-- The trailer selection as claim C10 reads: the first video in the results
list whose type is "Trailer", whose site is "YouTube", and whose key is
non-empty. -/
def firstTrailerSpec (results : List TmdbVideo) : Option TmdbVideo :=
  results.find? fun v =>
    decide (v.vtype = some "Trailer" ∧ v.site = some "YouTube" ∧
      v.key.getD "" ≠ "")

/-- C10: on a successful videos lookup the returned trailer URL is the
YouTube watch URL built from the first video with type "Trailer", site
"YouTube" and a non-empty key ("#" when no such video exists); on an
unsuccessful videos response the trailer URL is "#". -/
theorem C10_first_trailer (data : TmdbMovie) (results : List TmdbVideo) :
    ((fetch_movie_details (ReqOutcome.success data)
        (ReqOutcome.success results)).2.2.2.2 =
      match firstTrailerSpec results with
      | some v => "https://www.youtube.com/watch?v=" ++ v.key.getD ""
      | none => "#")
    ∧ (fetch_movie_details (ReqOutcome.success data)
        ReqOutcome.httpError).2.2.2.2 = "#" := by
  refine ⟨?_, rfl⟩
  show trailerOf results = _
  induction results with
  | nil => rfl
  | cons v vs ih =>
    by_cases hp : v.vtype = some "Trailer" ∧ v.site = some "YouTube" ∧
        v.key.getD "" ≠ ""
    · have hfind : List.find?
          (fun v => decide (v.vtype = some "Trailer" ∧ v.site = some "YouTube" ∧
            v.key.getD "" ≠ "")) (v :: vs) = some v :=
        List.find?_cons_of_pos vs (decide_eq_true hp)
      rw [trailerOf, if_pos hp, firstTrailerSpec, hfind]
    · have hfind : List.find?
          (fun v => decide (v.vtype = some "Trailer" ∧ v.site = some "YouTube" ∧
            v.key.getD "" ≠ "")) (v :: vs)
          = List.find? (fun v => decide (v.vtype = some "Trailer" ∧
              v.site = some "YouTube" ∧ v.key.getD "" ≠ "")) vs :=
        List.find?_cons_of_neg vs (by simpa using hp)
      rw [trailerOf, if_neg hp, firstTrailerSpec, hfind]
      exact ih
